import Mathlib

/-!
Shallow embedding of the lndw-compiler core: the expression AST, its two
optimization passes (`src/passes/constant_folding.rs`,
`src/passes/shift_replacement.rs`) and the virtual machine
(`src/interpreter.rs`).

Machine integers (Rust `i32`) are modelled as `Int` with explicit wrapping
into `[-2^31, 2^31)` wherever the source operates on `i32` with release-mode
(two's-complement wrapping) semantics; operations that abort the Rust process
even in release builds (division by zero, division overflow `MIN / -1`,
`ilog2` of a non-positive number, `Option::unwrap` on `None`) are modelled as
`Option`/explicit panic outcomes.
-/

/-! ## The i32 model -/

/-- Wrap an integer into the `i32` range `[-2^31, 2^31)`, i.e. two's-complement
overflow semantics of Rust release builds. -/
def wrap32 (n : Int) : Int :=
  Int.emod (n + 2147483648) 4294967296 - 2147483648

/-- The unsigned 32-bit pattern of an `i32` value. -/
def toU32 (n : Int) : Nat :=
  (Int.emod n 4294967296).toNat

/-- Read an unsigned 32-bit pattern back as an `i32` value. -/
def ofU32 (m : Nat) : Int :=
  if m < 2147483648 then (m : Int) else (m : Int) - 4294967296

/-- Bitwise AND of the low `fuel` bits of two naturals, by structural
recursion so that the kernel can evaluate it. -/
def landBits : Nat → Nat → Nat → Nat
  | 0, _, _ => 0
  | fuel + 1, a, b => (a % 2) * (b % 2) + 2 * landBits fuel (a / 2) (b / 2)

/-- Rust `i32` bitwise AND (`&`). -/
def land32 (x y : Int) : Int :=
  ofU32 (landBits 32 (toU32 x) (toU32 y))

/-- Rust `i32` addition, release semantics (wrapping). -/
def add32 (a b : Int) : Int := wrap32 (a + b)

/-- Rust `i32` subtraction, release semantics (wrapping). -/
def sub32 (a b : Int) : Int := wrap32 (a - b)

/-- Rust `i32` multiplication, release semantics (wrapping). -/
def mul32 (a b : Int) : Int := wrap32 (a * b)

/-- Rust `i32` negation, release semantics (wrapping). -/
def neg32 (a : Int) : Int := wrap32 (-a)

/-- Rust `i32` division (`/`): truncation toward zero; aborts (`none`) on a
zero divisor and on the overflowing `i32::MIN / -1`, in release builds too. -/
def div32 (a b : Int) : Option Int :=
  if b = 0 then none
  else if a = -2147483648 ∧ b = -1 then none
  else some (Int.tdiv a b)

/-- The shift amount Rust release builds use for an `i32` shift: the low five
bits of the right operand. -/
def shiftAmount (b : Int) : Nat :=
  (Int.emod b 32).toNat

/-- Rust `i32` left shift (`<<`), release semantics: the amount is masked to
`0..31`, the result wraps. -/
def shl32 (a b : Int) : Int :=
  wrap32 (a * 2 ^ shiftAmount b)

/-- Rust `i32` right shift (`>>`): arithmetic shift, i.e. floor division by a
power of two; the amount is masked to `0..31`. -/
def shr32 (a b : Int) : Int :=
  Int.fdiv a (2 ^ shiftAmount b)

/-- Rust `i32::ilog2`: floor of the base-2 logarithm; panics (`none`) on zero
or negative input. The fuel-based log keeps the definition kernel-evaluable. -/
def log2fuel : Nat → Nat → Nat
  | 0, _ => 0
  | fuel + 1, n => if 2 ≤ n then log2fuel fuel (n / 2) + 1 else 0

/-- `i32::ilog2` as used by the shift-replacement pass (result widened back to
`i32` by the source's `as i32` cast; for inputs below `2^31` the cast is the
identity). -/
def ilog2_32 (n : Int) : Option Int :=
  if n ≤ 0 then none else some (log2fuel 32 n.toNat)

/-! ## The AST (`crate::types`)

The `types` module itself is not among the inspected sources; the shapes
below are modelled from the spec (§3) and are forced by every pattern match
in the inspected passes and interpreter. -/

/-- Modelled from the spec: the closed operator set `{Add, Sub, Mul, Div,
Shl, Shr}` of `crate::types::Operator` (`types.rs` is not among the sources;
the constructors are those matched by both passes). -/
inductive Operator
  | Add | Sub | Mul | Div | Shl | Shr
deriving DecidableEq, Repr

/-- Modelled from the spec: the expression AST `crate::types::Expr` with
variants `Num(i32)`, `Var(String)`, `UnaryOp(Operator, Box<Expr>)`,
`BinaryOp(Box<Expr>, Operator, Box<Expr>)` (`types.rs` is not among the
sources; the constructors are those matched by both passes). -/
inductive Expr
  | Num (n : Int)
  | Var (name : String)
  | UnaryOp (op : Operator) (e : Expr)
  | BinaryOp (l : Expr) (op : Operator) (r : Expr)
deriving DecidableEq, Repr

/-! ## Constant folding (`src/passes/constant_folding.rs`) -/

/-- The post-recursion body of the source's `UnaryOp` arm: `if let
Expr::Num(n) = e && operator == Operator::Sub { return Num(n.neg()) }`,
otherwise the node is rebuilt around the folded child. -/
def foldUnCombine (operator : Operator) (e : Expr) : Option Expr :=
  match e, operator with
  | .Num n, .Sub => pure (.Num (neg32 n))
  | _, _ => pure (.UnaryOp operator e)

/-- The post-recursion body of the source's `BinaryOp` arm: compute when both
folded children are literals (refusing a zero right operand of `Div`),
otherwise rebuild the node around the folded children. -/
def foldBinCombine (operator : Operator) (l r : Expr) : Option Expr :=
  match l, r with
  | .Num left, .Num right =>
    match operator with
    | .Add => pure (.Num (add32 left right))
    | .Sub => pure (.Num (sub32 left right))
    | .Mul => pure (.Num (mul32 left right))
    | .Div =>
      if right = 0 then
        -- warning printed; the sub-tree is rebuilt unfolded
        pure (.BinaryOp (.Num left) .Div (.Num right))
      else
        match div32 left right with
        | some v => pure (.Num v)
        | none => none
    | .Shl => pure (.Num (shl32 left right))
    | .Shr => pure (.Num (shr32 left right))
  | _, _ => pure (.BinaryOp l operator r)

/-- `Expr::run_constant_fold` from `src/passes/constant_folding.rs`, with the
two post-recursion bodies factored out as `foldUnCombine`/`foldBinCombine`.
A `none` result models a Rust release-build abort: the only aborting
operation in the pass is the overflowing division `i32::MIN / -1` (a zero
divisor is caught and the node is rebuilt unfolded). -/
def run_constant_fold : Expr → Option Expr
  | .Num n => some (.Num n)
  | .Var s => some (.Var s)
  | .UnaryOp operator e₀ => do
    let e ← run_constant_fold e₀
    foldUnCombine operator e
  | .BinaryOp lhs operator rhs => do
    let l ← run_constant_fold lhs
    let r ← run_constant_fold rhs
    foldBinCombine operator l r

/-! ## Strength reduction (`src/passes/shift_replacement.rs`) -/

/-- The source's power-of-two test `(n & (n - 1)) == 0` on `i32`, with the
subtraction wrapping as in release builds. -/
def isPow2Test (n : Int) : Bool :=
  land32 n (sub32 n 1) == 0

/-- The `if let &Expr::Num(n) = e.as_ref()` pattern of the source: the
literal payload of a `Num` node, if any. -/
def numLit : Expr → Option Int
  | .Num n => some n
  | _ => none

/-- `Expr::replace_multiplications_with_bitshifts` from
`src/passes/shift_replacement.rs`. A `none` result models a Rust abort:
`ilog2` panics when its argument is not positive (the source tests only
`(n & (n - 1)) == 0`, which `0` — and, wrapping, `i32::MIN` — also passes). -/
def replace_multiplications_with_bitshifts : Expr → Option Expr
  | .Num n => some (.Num n)
  | .Var s => some (.Var s)
  | .UnaryOp op e =>
    (replace_multiplications_with_bitshifts e).map (fun e' => .UnaryOp op e')
  | .BinaryOp left op right =>
    match op with
    | .Add | .Sub | .Shl | .Shr => do
      let l ← replace_multiplications_with_bitshifts left
      let r ← replace_multiplications_with_bitshifts right
      pure (.BinaryOp l op r)
    | .Mul | .Div =>
      -- the `if let &Expr::Num(lhs) = left.as_ref()` guard; the two
      -- lower-priority arms (`else if let &Expr::Num(rhs) = right.as_ref()`
      -- and the final fallback) are spelled out in both branches
      match numLit left with
      | some lhs =>
        if isPow2Test lhs ∧ op ≠ .Div then do
          -- mul only; the right sub-tree is not recursed into
          let k ← ilog2_32 lhs
          pure (.BinaryOp right .Shl (.Num k))
        else
          match numLit right with
          | some rhs =>
            if isPow2Test rhs then do
              -- mul + div
              let l ← replace_multiplications_with_bitshifts left
              let k ← ilog2_32 rhs
              pure (.BinaryOp l (match op with | .Mul => .Shl | _ => .Shr) (.Num k))
            else do
              -- mul + div
              let l ← replace_multiplications_with_bitshifts left
              let r ← replace_multiplications_with_bitshifts right
              pure (.BinaryOp l op r)
          | none => do
            let l ← replace_multiplications_with_bitshifts left
            let r ← replace_multiplications_with_bitshifts right
            pure (.BinaryOp l op r)
      | none =>
        match numLit right with
        | some rhs =>
          if isPow2Test rhs then do
            -- mul + div
            let l ← replace_multiplications_with_bitshifts left
            let k ← ilog2_32 rhs
            pure (.BinaryOp l (match op with | .Mul => .Shl | _ => .Shr) (.Num k))
          else do
            -- mul + div
            let l ← replace_multiplications_with_bitshifts left
            let r ← replace_multiplications_with_bitshifts right
            pure (.BinaryOp l op r)
        | none => do
          let l ← replace_multiplications_with_bitshifts left
          let r ← replace_multiplications_with_bitshifts right
          pure (.BinaryOp l op r)

/-- Modelled from the spec: evaluation of an expression under an assignment
of `i32` values to its variables (spec §8 "for all well-typed register-value
assignments, executing original vs. reduced arithmetic yields identical
results"). The operator meanings are the `i32` operations the VM's
`run_binop` closures execute (spec §4.3); `none` models a runtime abort
(division by zero or division overflow). Unary operators other than `Sub`
are inert (spec §3). -/
def evalExpr (ρ : String → Int) : Expr → Option Int
  | .Num n => some n
  | .Var s => some (ρ s)
  | .UnaryOp op e => do
    let v ← evalExpr ρ e
    match op with
    | .Sub => pure (neg32 v)
    | _ => pure v
  | .BinaryOp l op r => do
    let x ← evalExpr ρ l
    let y ← evalExpr ρ r
    match op with
    | .Add => pure (add32 x y)
    | .Sub => pure (sub32 x y)
    | .Mul => pure (mul32 x y)
    | .Div => div32 x y
    | .Shl => pure (shl32 x y)
    | .Shr => pure (shr32 x y)

/-! ## The instruction set and error type (`crate::types`) -/

/-- Modelled from the spec: `crate::types::Reg`, an opaque register index
(`types.rs` is not among the sources). -/
abbrev Reg := Nat

/-- Modelled from the spec: the display form of a register (spec §3: "a small
non-negative index with a canonical display form, e.g. mapped to a letter"). -/
def regName (r : Reg) : String :=
  String.singleton (Char.ofNat (97 + r))

/-- Modelled from the spec: the instruction set `crate::types::Inst`
(`types.rs` is not among the sources; the constructors and operand shapes are
those matched by `Interpreter::step`, spec §4.3). -/
inductive Inst
  | Add (a b : Reg)
  | Sub (a b : Reg)
  | Mul (a b : Reg)
  | Div (a b : Reg)
  | Shl (a b : Reg)
  | Shr (a b : Reg)
  | Store (n : Int) (reg : Reg)
  | Transfer (var : String) (reg : Reg)
  | Result (reg : Reg)
  | Write (reg : Reg) (addr : Nat)
  | Load (addr : Nat) (reg : Reg)
deriving DecidableEq, Repr

/-- The runtime failures of `Interpreter::step`. The source's
`LpErr::Interpret(String)` carries a message string; each constructor below
stands for one of the distinct messages the interpreter builds (some bodies
come from the external i18n tables, so only their identity is modelled, not
their rendered text). -/
inductive LpErr
  /-- "The interpreter was either not ready to run or finished execution" -/
  | notReady
  /-- "no result found" -/
  | noResult
  /-- `t!("compiler.error.divzero")` -/
  | divZero
  /-- "no such reg `r`" (from `run_binop`) -/
  | noSuchReg (r : Reg)
  /-- "No variables loaded" -/
  | noVariables
  /-- `t!("compiler.error.unknown_var")` -/
  | unknownVar (v : String)
  /-- `t!("compiler.error.empty_var")` -/
  | emptyVar (v : String)
  /-- `t!("compiler.error.nan_var")` -/
  | nanVar (v : String) (val : String)
  /-- "register `r` is empty" (from `Result` and `Write`) -/
  | regEmpty (r : Reg)
  /-- "requested RAM address {addr} doesn't exist." -/
  | ramOOB (addr : Nat)
deriving DecidableEq, Repr

/-- `InterpreterState` from `src/interpreter.rs`, extended with the two ways
a step can fail to return: a typed `Err(LpErr)` and a Rust process abort
(`unwrap` on an empty register during tracing, or arithmetic overflow). -/
inductive StepRes
  /-- `Ok(InterpreterState::Continue)` -/
  | cont
  /-- `Ok(InterpreterState::Finished v)` -/
  | finished (v : Int)
  /-- `Err(e)` -/
  | error (e : LpErr)
  /-- the Rust process aborts (panic); no value is returned -/
  | panic
deriving DecidableEq, Repr

/-! ## The virtual machine (`src/interpreter.rs`) -/

/-- The `Interpreter` struct from `src/interpreter.rs`. The sparse register
store (`HashMap<Reg, i32>`) is modelled as a function to `Option Int`; the
input-variable `HashMap<String, String>` as an association list. -/
structure Interpreter where
  reg_store : Reg → Option Int
  ram : List Int
  instructions : List Inst
  program_counter : Nat
  input_variables : Option (List (String × String))
  running : Bool
  str_repr : String
  repr_enabled : Bool

/-- Rust `str::parse::<i32>`: an optional sign followed by one or more ASCII
digits, rejecting anything else and values outside the `i32` range. -/
def parseI32 (s : String) : Option Int :=
  match s.data with
  | [] => none
  | c :: rest =>
    let signed : Bool × List Char :=
      if c = '-' then (true, rest)
      else if c = '+' then (false, rest)
      else (false, c :: rest)
    match signed with
    | (neg, digits) =>
      if digits = [] then none
      else if digits.all Char.isDigit then
        let n : Nat := digits.foldl (fun acc d => acc * 10 + (d.toNat - 48)) 0
        if neg then
          if n ≤ 2147483648 then some (-(n : Int)) else none
        else
          if n ≤ 2147483647 then some (n : Int) else none
      else none

/-- `Interpreter::display_binop`: renders both operand registers with
`.unwrap()`, so an empty operand register aborts the process (`none`). -/
def display_binop (s : Interpreter) (a b : Reg) (op : String) : Option String :=
  match s.reg_store a, s.reg_store b with
  | some x, some y => some (toString x ++ " " ++ op ++ " " ++ toString y)
  | _, _ => none

/-- `Interpreter::cur_as_string`: the human-readable form of the instruction
at the program counter, rendered from pre-execution register contents.
`none` models a panic: an out-of-range program counter (`Vec` index) or an
`unwrap` of an empty register. -/
def cur_as_string (s : Interpreter) : Option String :=
  match s.instructions[s.program_counter]? with
  | none => none
  | some inst =>
    match inst with
    | .Add a b => display_binop s a b "+"
    | .Sub a b => display_binop s a b "-"
    | .Mul a b => display_binop s a b "*"
    | .Div a b => display_binop s a b "/"
    | .Shl a b => display_binop s a b "<<"
    | .Shr a b => display_binop s a b ">>"
    | .Store num a => some (toString num ++ " ➡ [" ++ regName a ++ "]")
    | .Transfer var a => some (var ++ " ➡ [" ++ regName a ++ "]")
    | .Result a => (s.reg_store a).map (fun v => "= " ++ toString v)
    | .Write reg addr => some ("⎘ [" ++ regName reg ++ "] ➡ [" ++ toString addr ++ "]")
    | .Load addr reg => some ("⎗ [" ++ regName reg ++ "] ⬅ [" ++ toString addr ++ "]")

/-- The result of `run_binop`: an updated register store, a typed error, or
a process abort from the arithmetic closure (`i32::MIN / -1`). -/
inductive BinopRes
  | ok (store : Reg → Option Int)
  | err (e : LpErr)
  | panicked
deriving Inhabited

/-- `run_binop` from `src/interpreter.rs`: reads registers `a` and `b`,
writes `op a b` back into `b`; an empty register is the typed "no such reg"
failure, `a` being checked first. -/
def run_binop (a b : Reg) (op : Int → Int → Option Int)
    (reg_store : Reg → Option Int) : BinopRes :=
  match reg_store a, reg_store b with
  | some x, some y =>
    match op x y with
    | some v => .ok (fun r => if r = b then some v else reg_store r)
    | none => .panicked
  | none, _ => .err (.noSuchReg a)
  | some _, none => .err (.noSuchReg b)

/-- Folds a `run_binop` result back into the stepping interpreter: on success
the program counter advances by one and `Continue` is returned. -/
def finishBinop (s : Interpreter) : BinopRes → Interpreter × StepRes
  | .ok store =>
    ({ s with reg_store := store, program_counter := s.program_counter + 1 }, .cont)
  | .err e => (s, .error e)
  | .panicked => (s, .panic)

/-- The per-instruction body of `Interpreter::step` (the `match` over
`self.instructions[self.program_counter]` and the trailing
`self.program_counter += 1`). -/
def execInst (s : Interpreter) (inst : Inst) : Interpreter × StepRes :=
  match inst with
  | .Add a b => finishBinop s (run_binop a b (fun x y => some (add32 x y)) s.reg_store)
  | .Sub a b => finishBinop s (run_binop a b (fun x y => some (sub32 x y)) s.reg_store)
  | .Mul a b => finishBinop s (run_binop a b (fun x y => some (mul32 x y)) s.reg_store)
  | .Div a b =>
    -- `if let Some(0) = self.reg_store.get(b)`: the zero check precedes the division
    if s.reg_store b = some 0 then (s, .error .divZero)
    else finishBinop s (run_binop a b div32 s.reg_store)
  | .Shl a b => finishBinop s (run_binop a b (fun x y => some (shl32 x y)) s.reg_store)
  | .Shr a b => finishBinop s (run_binop a b (fun x y => some (shr32 x y)) s.reg_store)
  | .Store n reg =>
    -- an existing value is overwritten; the source only prints a warning
    ({ s with reg_store := fun r => if r = reg then some n else s.reg_store r,
              program_counter := s.program_counter + 1 }, .cont)
  | .Transfer var reg =>
    match s.input_variables with
    | none => (s, .error .noVariables)
    | some vars =>
      match List.lookup var vars with
      | none => (s, .error (.unknownVar var))
      | some val_str =>
        if val_str = "" then (s, .error (.emptyVar var))
        else
          match parseI32 val_str with
          | none => (s, .error (.nanVar var val_str))
          | some val =>
            ({ s with reg_store := fun r => if r = reg then some val else s.reg_store r,
                      program_counter := s.program_counter + 1 }, .cont)
  | .Result r =>
    -- the counter advances and `running` is cleared before the register is read
    let s' := { s with program_counter := s.program_counter + 1, running := false }
    match s'.reg_store r with
    | none => (s', .error (.regEmpty r))
    | some v => (s', .finished v)
  | .Write r addr =>
    if s.ram.length ≤ addr then (s, .error (.ramOOB addr))
    else
      match s.reg_store r with
      | none => (s, .error (.regEmpty r))
      | some v =>
        ({ s with ram := s.ram.set addr v,
                  program_counter := s.program_counter + 1 }, .cont)
  | .Load addr r =>
    if s.ram.length ≤ addr then (s, .error (.ramOOB addr))
    else
      ({ s with reg_store := fun x => if x = r then some (s.ram.getD addr 0) else s.reg_store x,
                program_counter := s.program_counter + 1 }, .cont)

/-- `Interpreter::step` from `src/interpreter.rs`: refuse when not running,
refuse when the program counter is past the last instruction, update the
trace string (pre-execution register contents; an `unwrap` failure there
aborts the process), then execute the current instruction. -/
def step (s : Interpreter) : Interpreter × StepRes :=
  if s.running = false then (s, .error .notReady)
  else
    match s.instructions[s.program_counter]? with
    | none => (s, .error .noResult)
    | some inst =>
      match (if s.repr_enabled then cur_as_string s else some s.str_repr) with
      | none => (s, .panic)
      | some rep => execInst { s with str_repr := rep } inst

/-! ## Shared concrete machine states and instruction classification -/

/-- The operand registers and `i32` arithmetic closure of each two-address
binary instruction, exactly as `Interpreter::step` dispatches them to
`run_binop` (`i32::add`, …, with the `Div` closure partial on its aborting
inputs). -/
def binopOf : Inst → Option (Reg × Reg × (Int → Int → Option Int))
  | .Add a b => some (a, b, fun x y => some (add32 x y))
  | .Sub a b => some (a, b, fun x y => some (sub32 x y))
  | .Mul a b => some (a, b, fun x y => some (mul32 x y))
  | .Div a b => some (a, b, div32)
  | .Shl a b => some (a, b, fun x y => some (shl32 x y))
  | .Shr a b => some (a, b, fun x y => some (shr32 x y))
  | _ => none

/-- A freshly constructed interpreter (`Interpreter::with_config` with no
cachelines) that has been loaded with `insts` and marked ready, without
tracing or input variables. -/
def mkVM (insts : List Inst) : Interpreter :=
  { reg_store := fun _ => none, ram := [], instructions := insts,
    program_counter := 0, input_variables := none, running := true,
    str_repr := "", repr_enabled := false }

/-- A running VM about to execute `Div(a, b)` with register `a` holding
`i32::MIN` and register `b` holding `-1`: Rust's division overflows. -/
def divOverflowVM : Interpreter :=
  { mkVM [.Div 0 1] with
    reg_store := fun r => if r = 0 then some (-2147483648) else
                          if r = 1 then some (-1) else none }

/-- A running VM about to execute `Add(r0, r0)` with `r0` holding `1`:
source and destination are the same register. -/
def addSameRegVM : Interpreter :=
  { mkVM [.Add 0 0] with reg_store := fun r => if r = 0 then some 1 else none }

/-- A running, tracing VM about to execute `Div(a, b)` with `b` holding `0`
and `a` empty: the trace rendering unwraps the empty register. -/
def divTraceVM : Interpreter :=
  { mkVM [.Div 0 1] with
    reg_store := fun r => if r = 1 then some 0 else none,
    repr_enabled := true }

/-- A running VM with one cacheline about to execute `Write(r0, 0)` with
`r0` empty: the address is in range but the source register is not set. -/
def writeEmptyVM : Interpreter :=
  { mkVM [.Write 0 0] with ram := [0] }

/-- A running, tracing VM about to execute `Add(r0, r1)` with both registers
empty. -/
def addTraceVM : Interpreter :=
  { mkVM [.Add 0 1] with repr_enabled := true }

/-- A running VM with input mapping `{"x": "7"}` about to execute
`Transfer("x", r0)` followed by `Result(r0)`. -/
def transferVM : Interpreter :=
  { mkVM [.Transfer "x" 0, .Result 0] with input_variables := some [("x", "7")] }

/-- A running VM about to execute `Result(r0)` with `r0` empty. -/
def resultEmptyVM : Interpreter :=
  mkVM [.Result 0]

/-- A running VM about to execute `Add(r0, r1)` with `r0 = 5`, `r1 = 3`. -/
def addWitnessVM : Interpreter :=
  { mkVM [.Add 0 1] with
    reg_store := fun r => if r = 0 then some 5 else if r = 1 then some 3 else none }

/-- A running VM about to execute `Div(r0, r1)` with `r0 = 8`, `r1 = 0`. -/
def divZeroVM : Interpreter :=
  { mkVM [.Div 0 1] with
    reg_store := fun r => if r = 0 then some 8 else if r = 1 then some 0 else none }

/-- A running VM with one cacheline holding `7`, about to execute
`Load(0, r1)`: the address is the last valid one. -/
def loadVM : Interpreter :=
  { mkVM [.Load 0 1] with ram := [7] }

/-- A running VM with one cacheline, about to execute `Load(1, r0)`: the
address is one past the end. -/
def loadOobVM : Interpreter :=
  { mkVM [.Load 1 0] with ram := [7] }

/-! ## Constant-folding theorems -/

/-- A `Num` pattern match succeeds exactly on `Num` nodes. -/
theorem numLit_eq_some {e : Expr} {n : Int} (h : numLit e = some n) : e = .Num n := by
  cases e <;> simp_all [numLit]

/-- The binary combine step only rebuilds when a child is not a literal. -/
theorem foldBinCombine_not_num (op : Operator) (l r : Expr)
    (h : numLit l = none ∨ numLit r = none) :
    foldBinCombine op l r = some (.BinaryOp l op r) := by
  cases l <;> cases r <;> simp_all [foldBinCombine, numLit]

/-- The unary combine step only rebuilds when it does not negate a literal. -/
theorem foldUnCombine_not_neg (op : Operator) (e : Expr)
    (h : numLit e = none ∨ op ≠ .Sub) :
    foldUnCombine op e = some (.UnaryOp op e) := by
  cases e <;> cases op <;> simp_all [foldUnCombine, numLit]

/-- Rebuilt binary nodes whose folded children are not both literals are
fixed points of the folding pass. -/
theorem rcf_rebuild_binary (l₀ r₀ : Expr) (op : Operator)
    (hl : run_constant_fold l₀ = some l₀) (hr : run_constant_fold r₀ = some r₀)
    (h : numLit l₀ = none ∨ numLit r₀ = none) :
    run_constant_fold (.BinaryOp l₀ op r₀) = some (.BinaryOp l₀ op r₀) := by
  simp [run_constant_fold, hl, hr, foldBinCombine_not_num op l₀ r₀ h]

/-- Rebuilt unary nodes that do not fold (child not a literal, or the
operator is not the negation tag) are fixed points of the folding pass. -/
theorem rcf_rebuild_unary (op : Operator) (e₀ : Expr)
    (he : run_constant_fold e₀ = some e₀)
    (h : numLit e₀ = none ∨ op ≠ .Sub) :
    run_constant_fold (.UnaryOp op e₀) = some (.UnaryOp op e₀) := by
  simp [run_constant_fold, he, foldUnCombine_not_neg op e₀ h]

/-- Every successful output of the folding pass is one of its fixed points. -/
theorem rcf_idem_aux :
    ∀ (e e' : Expr), run_constant_fold e = some e' →
      run_constant_fold e' = some e' := by
  intro e
  induction e with
  | Num n =>
    intro e' h
    simp only [run_constant_fold, Option.some.injEq] at h
    subst h; simp [run_constant_fold]
  | Var s =>
    intro e' h
    simp only [run_constant_fold, Option.some.injEq] at h
    subst h; simp [run_constant_fold]
  | UnaryOp op e ih =>
    intro e' h
    simp only [run_constant_fold] at h
    cases hfe : run_constant_fold e with
    | none => rw [hfe] at h; simp at h
    | some e₀ =>
      rw [hfe] at h
      simp only [Option.bind_eq_bind, Option.some_bind] at h
      have ih' := ih e₀ hfe
      cases hne : numLit e₀ with
      | some n =>
        obtain rfl := numLit_eq_some hne
        cases op <;> simp [foldUnCombine] at h <;> subst h <;>
          simp [run_constant_fold, foldUnCombine]
      | none =>
        rw [foldUnCombine_not_neg op e₀ (Or.inl hne)] at h
        simp only [Option.some.injEq] at h
        subst h
        exact rcf_rebuild_unary op e₀ ih' (Or.inl hne)
  | BinaryOp l op r ihl ihr =>
    intro e' h
    simp only [run_constant_fold] at h
    cases hfl : run_constant_fold l with
    | none => rw [hfl] at h; simp at h
    | some l₀ =>
      cases hfr : run_constant_fold r with
      | none => rw [hfl, hfr] at h; simp at h
      | some r₀ =>
        rw [hfl, hfr] at h
        simp only [Option.bind_eq_bind, Option.some_bind] at h
        have ihl' := ihl l₀ hfl
        have ihr' := ihr r₀ hfr
        cases hnl : numLit l₀ with
        | none =>
          rw [foldBinCombine_not_num op l₀ r₀ (Or.inl hnl)] at h
          simp only [Option.some.injEq] at h
          subst h
          exact rcf_rebuild_binary l₀ r₀ op ihl' ihr' (Or.inl hnl)
        | some a =>
          obtain rfl := numLit_eq_some hnl
          cases hnr : numLit r₀ with
          | none =>
            rw [foldBinCombine_not_num op _ r₀ (Or.inr hnr)] at h
            simp only [Option.some.injEq] at h
            subst h
            exact rcf_rebuild_binary _ r₀ op ihl' ihr' (Or.inr hnr)
          | some b =>
            obtain rfl := numLit_eq_some hnr
            cases op with
            | Add =>
              simp only [foldBinCombine, Option.some.injEq, pure] at h
              subst h; simp [run_constant_fold]
            | Sub =>
              simp only [foldBinCombine, Option.some.injEq, pure] at h
              subst h; simp [run_constant_fold]
            | Mul =>
              simp only [foldBinCombine, Option.some.injEq, pure] at h
              subst h; simp [run_constant_fold]
            | Div =>
              by_cases hb : b = 0
              · subst hb
                simp only [foldBinCombine, if_pos, Option.some.injEq, pure] at h
                subst h
                simp [run_constant_fold, foldBinCombine]
              · simp only [foldBinCombine, if_neg hb] at h
                cases hd : div32 a b with
                | none => rw [hd] at h; simp at h
                | some v =>
                  rw [hd] at h
                  simp only [Option.some.injEq, pure] at h
                  subst h; simp [run_constant_fold]
            | Shl =>
              simp only [foldBinCombine, Option.some.injEq, pure] at h
              subst h; simp [run_constant_fold]
            | Shr =>
              simp only [foldBinCombine, Option.some.injEq, pure] at h
              subst h; simp [run_constant_fold]

/-- C3: constant folding of a `BinaryOp` whose two children fold to `Num l`
and `Num 0` with operator `Div` is refused: the result is the unfolded
`BinaryOp (Num l) Div (Num 0)` — never a `Num` node and never a
compile-time failure. -/
theorem fold_div_by_zero_refused (e₁ e₂ : Expr) (l : Int)
    (h₁ : run_constant_fold e₁ = some (.Num l))
    (h₂ : run_constant_fold e₂ = some (.Num 0)) :
    run_constant_fold (.BinaryOp e₁ .Div e₂) =
      some (.BinaryOp (.Num l) .Div (.Num 0)) := by
  simp [run_constant_fold, h₁, h₂, foldBinCombine]

/-- Witness for C3 at `e₁ = Num 5`, `e₂ = Num 0`. -/
theorem fold_div_by_zero_refused_witness :
    run_constant_fold (.BinaryOp (.Num 5) .Div (.Num 0)) =
      some (.BinaryOp (.Num 5) .Div (.Num 0)) :=
  fold_div_by_zero_refused (.Num 5) (.Num 0) 5 (by decide) (by decide)

/-- C4 (amended): constant folding is idempotent — refolding the result of a
successful fold changes nothing (and a fold that aborts stays aborted) — and
the refused-division node `BinaryOp (Num l) Div (Num 0)` itself is a fixed
point of the pass. -/
theorem fold_idempotent :
    (∀ e : Expr, (run_constant_fold e).bind run_constant_fold =
      run_constant_fold e)
  ∧ (∀ l : Int, run_constant_fold (.BinaryOp (.Num l) .Div (.Num 0)) =
      some (.BinaryOp (.Num l) .Div (.Num 0))) := by
  constructor
  · intro e
    cases h : run_constant_fold e with
    | none => rfl
    | some e' => simpa using rcf_idem_aux e e' h
  · intro l
    simp [run_constant_fold, foldBinCombine]

/-- C4 counterexample: a tree *containing* a would-be division by zero is not
already a fixed point of the pass — the pass still folds its other
sub-trees: `(1 + 2) / 0` folds to `3 / 0`, a different tree. -/
theorem fold_idempotent_cex :
    run_constant_fold
        (.BinaryOp (.BinaryOp (.Num 1) .Add (.Num 2)) .Div (.Num 0)) =
      some (.BinaryOp (.Num 3) .Div (.Num 0))
  ∧ (Expr.BinaryOp (.Num 3) .Div (.Num 0)) ≠
      (.BinaryOp (.BinaryOp (.Num 1) .Add (.Num 2)) .Div (.Num 0)) := by
  constructor
  · decide
  · decide

/-! ## Strength-reduction theorems -/

/-- C1: strength reduction is *not* value-preserving. The division
`x / 4` is rewritten to the arithmetic shift `x >> 2`, but at `x = -1` the
original division truncates to `0` while the shift floors to `-1`. -/
theorem shift_replacement_changes_div_value :
    replace_multiplications_with_bitshifts (.BinaryOp (.Var "x") .Div (.Num 4)) =
      some (.BinaryOp (.Var "x") .Shr (.Num 2))
  ∧ evalExpr (fun _ => -1) (.BinaryOp (.Var "x") .Div (.Num 4)) = some 0
  ∧ evalExpr (fun _ => -1) (.BinaryOp (.Var "x") .Shr (.Num 2)) = some (-1) := by
  refine ⟨by decide, by decide, by decide⟩

/-- C2: the pass *does* treat the literal `0` as a power of two — `0` passes
the test `(n & (n - 1)) == 0` — and then aborts in `ilog2`: reducing
`0 * x` (and likewise `x / 0`) panics instead of falling through unreduced,
so `reduce` is not total on those inputs. A genuinely negative literal such
as `-3` does fall through. -/
theorem shift_replacement_zero_literal_panics :
    replace_multiplications_with_bitshifts (.BinaryOp (.Num 0) .Mul (.Var "x")) = none
  ∧ replace_multiplications_with_bitshifts (.BinaryOp (.Var "x") .Div (.Num 0)) = none
  ∧ isPow2Test 0 = true
  ∧ replace_multiplications_with_bitshifts (.BinaryOp (.Num (-3)) .Mul (.Var "x")) =
      some (.BinaryOp (.Num (-3)) .Mul (.Var "x")) := by
  refine ⟨by decide, by decide, by decide, by decide⟩

/-! ## Virtual-machine theorems -/

/-- When the current trace rendering succeeds (or tracing is off) a running
`step` with a valid program counter is the per-instruction body applied to
the state with the refreshed trace string. -/
theorem step_eq_execInst (s : Interpreter) (inst : Inst) (rep : String)
    (hrun : s.running = true)
    (hi : s.instructions[s.program_counter]? = some inst)
    (hrep : (if s.repr_enabled then cur_as_string s else some s.str_repr) = some rep) :
    step s = execInst { s with str_repr := rep } inst := by
  simp [step, hrun, hi, hrep]

/-- Rendering a binary instruction succeeds when both operand registers hold
values. -/
theorem cur_as_string_binop (s : Interpreter) (inst : Inst) (a b : Reg)
    (f : Int → Int → Option Int) (va vb : Int)
    (hi : s.instructions[s.program_counter]? = some inst)
    (hab : binopOf inst = some (a, b, f))
    (ha : s.reg_store a = some va) (hb : s.reg_store b = some vb) :
    ∃ str, cur_as_string s = some str := by
  cases inst
  all_goals simp only [binopOf, Option.some.injEq, Prod.mk.injEq,
    reduceCtorEq] at hab
  all_goals obtain ⟨rfl, rfl, rfl⟩ := hab
  all_goals simp [cur_as_string, hi, display_binop, ha, hb]

/-- `run_binop` with both registers set and a non-aborting arithmetic closure
updates register `b` in place. -/
theorem run_binop_ok (x y : Reg) (g : Int → Int → Option Int)
    (st : Reg → Option Int) (va vb v : Int)
    (ha : st x = some va) (hb : st y = some vb) (hg : g va vb = some v) :
    run_binop x y g st = .ok (fun r => if r = y then some v else st r) := by
  simp [run_binop, ha, hb, hg]

/-- A successful division has a nonzero divisor. -/
theorem div32_divisor_ne_zero {a b v : Int} (h : div32 a b = some v) : b ≠ 0 := by
  intro hb
  subst hb
  simp [div32] at h

/-- C5 (amended): a binary instruction stepped when both registers hold
values — and whose arithmetic does not abort, i.e. for `Div` the divisor is
nonzero and the operands are not the overflowing `(i32::MIN, -1)` — writes
`op(valueBefore(a), valueBefore(b))` into register `b`, leaves every other
register (in particular `a` when `a ≠ b`), the RAM and the running flag
unchanged, and advances the program counter by exactly one. -/
theorem step_binop_two_address (s : Interpreter) (inst : Inst) (a b : Reg)
    (f : Int → Int → Option Int) (va vb v : Int)
    (hrun : s.running = true)
    (hi : s.instructions[s.program_counter]? = some inst)
    (hab : binopOf inst = some (a, b, f))
    (ha : s.reg_store a = some va)
    (hb : s.reg_store b = some vb)
    (hv : f va vb = some v) :
    (step s).2 = .cont
  ∧ (step s).1.reg_store b = some v
  ∧ (∀ r : Reg, r ≠ b → (step s).1.reg_store r = s.reg_store r)
  ∧ (step s).1.ram = s.ram
  ∧ (step s).1.running = s.running
  ∧ (step s).1.program_counter = s.program_counter + 1 := by
  obtain ⟨str, hstr⟩ := cur_as_string_binop s inst a b f va vb hi hab ha hb
  have hrep : (if s.repr_enabled then cur_as_string s else some s.str_repr) =
      some (if s.repr_enabled then str else s.str_repr) := by
    cases hre : s.repr_enabled <;> simp [hstr]
  rw [step_eq_execInst s inst _ hrun hi hrep]
  cases inst
  all_goals simp only [binopOf, Option.some.injEq, Prod.mk.injEq,
    reduceCtorEq] at hab
  all_goals obtain ⟨rfl, rfl, rfl⟩ := hab
  all_goals first
  | (have hvb := div32_divisor_ne_zero hv
     simp +contextual [execInst, run_binop, finishBinop, ha, hb, hv, hvb])
  | simp +contextual [execInst, run_binop, finishBinop, ha, hb, hv]

/-- Witness for C5 at `Add(r0, r1)` with `r0 = 5`, `r1 = 3`. -/
theorem step_binop_two_address_witness :
    (step addWitnessVM).2 = .cont
  ∧ (step addWitnessVM).1.reg_store 1 = some 8
  ∧ (∀ r : Reg, r ≠ 1 → (step addWitnessVM).1.reg_store r = addWitnessVM.reg_store r)
  ∧ (step addWitnessVM).1.ram = addWitnessVM.ram
  ∧ (step addWitnessVM).1.running = addWitnessVM.running
  ∧ (step addWitnessVM).1.program_counter = addWitnessVM.program_counter + 1 :=
  step_binop_two_address addWitnessVM (.Add 0 1) 0 1
    (fun x y => some (add32 x y)) 5 3 8 rfl rfl rfl rfl rfl (by decide)

/-- C5 counterexample: the claim fails as stated on two concrete inputs.
`Div(r0, r1)` with `r0 = i32::MIN` and `r1 = -1` aborts the process
(division overflow) instead of updating `r1` and advancing the program
counter; and `Add(r0, r0)` with `r0 = 1` leaves `r0 = 2`, so register `a`
is not unchanged when `a = b`. -/
theorem step_binop_two_address_cex :
    (step divOverflowVM).2 = .panic
  ∧ (step divOverflowVM).1.program_counter = divOverflowVM.program_counter
  ∧ divOverflowVM.reg_store 0 = some (-2147483648)
  ∧ divOverflowVM.reg_store 1 = some (-1)
  ∧ (step addSameRegVM).2 = .cont
  ∧ addSameRegVM.reg_store 0 = some 1
  ∧ (step addSameRegVM).1.reg_store 0 = some 2 := by
  refine ⟨by decide, by decide, by decide, by decide, by decide, by decide, by decide⟩

/-- C6 (amended): stepping `Div(a, b)` when register `b` holds `0` — with
tracing disabled, or with tracing enabled and register `a` nonempty (with
tracing enabled and `a` empty the trace rendering aborts the process
instead) — returns the division-by-zero failure and leaves every register,
the RAM, the program counter and the running flag unchanged. -/
theorem step_div_zero_no_mutation (s : Interpreter) (a b : Reg)
    (hrun : s.running = true)
    (hi : s.instructions[s.program_counter]? = some (.Div a b))
    (hb : s.reg_store b = some 0)
    (htr : s.repr_enabled = false ∨ ∃ va, s.reg_store a = some va) :
    (step s).2 = .error .divZero
  ∧ (step s).1.reg_store = s.reg_store
  ∧ (step s).1.ram = s.ram
  ∧ (step s).1.program_counter = s.program_counter
  ∧ (step s).1.running = s.running := by
  cases htr with
  | inl htr =>
    have hrep : (if s.repr_enabled then cur_as_string s else some s.str_repr) =
        some s.str_repr := by simp [htr]
    rw [step_eq_execInst s _ _ hrun hi hrep]
    simp [execInst, hb]
  | inr htr =>
    obtain ⟨va, ha⟩ := htr
    obtain ⟨str, hstr⟩ :=
      cur_as_string_binop s _ a b div32 va 0 hi (by simp [binopOf]) ha hb
    have hrep : (if s.repr_enabled then cur_as_string s else some s.str_repr) =
        some (if s.repr_enabled then str else s.str_repr) := by
      cases hre : s.repr_enabled <;> simp [hstr]
    rw [step_eq_execInst s _ _ hrun hi hrep]
    simp [execInst, hb]

/-- Witness for C6 at `Div(r0, r1)` with `r0 = 8`, `r1 = 0`. -/
theorem step_div_zero_no_mutation_witness :
    (step divZeroVM).2 = .error .divZero
  ∧ (step divZeroVM).1.reg_store = divZeroVM.reg_store
  ∧ (step divZeroVM).1.ram = divZeroVM.ram
  ∧ (step divZeroVM).1.program_counter = divZeroVM.program_counter
  ∧ (step divZeroVM).1.running = divZeroVM.running :=
  step_div_zero_no_mutation divZeroVM 0 1 rfl rfl rfl (Or.inl rfl)

/-- C6 counterexample: with tracing enabled and register `a` empty, stepping
`Div(a, b)` with `b` holding `0` aborts the process in the trace rendering
instead of returning the division-by-zero failure. -/
theorem step_div_zero_no_mutation_cex :
    (step divTraceVM).2 = .panic
  ∧ (step divTraceVM).2 ≠ .error .divZero := by
  refine ⟨by decide, by decide⟩

/-- C7 (amended): with the VM running and the instruction current, `Write`
or `Load` at `addr = num_cachelines` returns the typed out-of-range failure
(never a panic); at `addr = num_cachelines - 1` (a RAM of at least one
cacheline) `Load` always succeeds, and `Write` succeeds whenever its source
register holds a value. -/
theorem step_ram_bounds (s : Interpreter) (r : Reg) (addr : Nat)
    (hrun : s.running = true) :
    (s.instructions[s.program_counter]? = some (.Write r addr) →
      addr = s.ram.length → (step s).2 = .error (.ramOOB addr))
  ∧ (s.instructions[s.program_counter]? = some (.Load addr r) →
      addr = s.ram.length → (step s).2 = .error (.ramOOB addr))
  ∧ (s.instructions[s.program_counter]? = some (.Load addr r) →
      addr + 1 = s.ram.length → (step s).2 = .cont)
  ∧ (∀ v : Int, s.instructions[s.program_counter]? = some (.Write r addr) →
      addr + 1 = s.ram.length → s.reg_store r = some v →
      (step s).2 = .cont) := by
  refine ⟨?_, ?_, ?_, ?_⟩
  · intro hi hlen
    obtain ⟨str, hstr⟩ : ∃ str, cur_as_string s = some str := by
      simp [cur_as_string, hi]
    have hrep : (if s.repr_enabled then cur_as_string s else some s.str_repr) =
        some (if s.repr_enabled then str else s.str_repr) := by
      cases hre : s.repr_enabled <;> simp [hstr]
    rw [step_eq_execInst s _ _ hrun hi hrep]
    subst hlen
    simp [execInst]
  · intro hi hlen
    obtain ⟨str, hstr⟩ : ∃ str, cur_as_string s = some str := by
      simp [cur_as_string, hi]
    have hrep : (if s.repr_enabled then cur_as_string s else some s.str_repr) =
        some (if s.repr_enabled then str else s.str_repr) := by
      cases hre : s.repr_enabled <;> simp [hstr]
    rw [step_eq_execInst s _ _ hrun hi hrep]
    subst hlen
    simp [execInst]
  · intro hi hlen
    obtain ⟨str, hstr⟩ : ∃ str, cur_as_string s = some str := by
      simp [cur_as_string, hi]
    have hrep : (if s.repr_enabled then cur_as_string s else some s.str_repr) =
        some (if s.repr_enabled then str else s.str_repr) := by
      cases hre : s.repr_enabled <;> simp [hstr]
    rw [step_eq_execInst s _ _ hrun hi hrep]
    have hlt : ¬ s.ram.length ≤ addr := by omega
    simp [execInst, hlt]
  · intro v hi hlen hv
    obtain ⟨str, hstr⟩ : ∃ str, cur_as_string s = some str := by
      simp [cur_as_string, hi]
    have hrep : (if s.repr_enabled then cur_as_string s else some s.str_repr) =
        some (if s.repr_enabled then str else s.str_repr) := by
      cases hre : s.repr_enabled <;> simp [hstr]
    rw [step_eq_execInst s _ _ hrun hi hrep]
    have hlt : ¬ s.ram.length ≤ addr := by omega
    simp [execInst, hlt, hv]

/-- Witness for C7: `Load(0, r1)` on a one-cacheline RAM succeeds, and
`Load(1, r0)` on the same RAM fails with the out-of-range error. -/
theorem step_ram_bounds_witness :
    (step loadVM).2 = .cont
  ∧ (step loadOobVM).2 = .error (.ramOOB 1) :=
  ⟨(step_ram_bounds loadVM 1 0 rfl).2.2.1 rfl rfl,
   (step_ram_bounds loadOobVM 0 1 rfl).2.1 rfl rfl⟩

/-- C7 counterexample: `Write(r0, 0)` at the last valid address of a
one-cacheline RAM does *not* always succeed — with `r0` empty it fails with
the typed empty-register error. -/
theorem step_ram_bounds_cex :
    writeEmptyVM.ram.length = 1
  ∧ (step writeEmptyVM).2 = .error (.regEmpty 0)
  ∧ (step writeEmptyVM).2 ≠ .cont := by
  refine ⟨by decide, by decide, by decide⟩

/-- C8: with tracing enabled, stepping `Add(r0, r1)` with an empty source
register does *not* yield a typed failure — the trace rendering unwraps the
empty register and aborts the process; the same step with tracing disabled
returns the typed empty-register failure. -/
theorem step_trace_unwrap_panics :
    (step addTraceVM).2 = .panic
  ∧ (step (mkVM [.Add 0 1])).2 = .error (.noSuchReg 0) := by
  refine ⟨by decide, by decide⟩

/-- C9: inside a running step of `Transfer(var, reg)`, each of the four
failure modes returns its own distinct typed error — no mapping attached,
variable absent, raw value empty, raw value not a number — and a parseable
value is stored in `reg` with execution continuing; concretely, with mapping
`{"x": "7"}`, `Transfer("x", r0)` followed by `Result(r0)` yields `7`. -/
theorem step_transfer_cases :
    (∀ (s : Interpreter) (var : String) (reg : Reg),
      s.running = true →
      s.instructions[s.program_counter]? = some (.Transfer var reg) →
        (s.input_variables = none → (step s).2 = .error .noVariables)
      ∧ (∀ m, s.input_variables = some m → List.lookup var m = none →
          (step s).2 = .error (.unknownVar var))
      ∧ (∀ m, s.input_variables = some m → List.lookup var m = some "" →
          (step s).2 = .error (.emptyVar var))
      ∧ (∀ m val, s.input_variables = some m → List.lookup var m = some val →
          ¬val = "" → parseI32 val = none →
          (step s).2 = .error (.nanVar var val))
      ∧ (∀ m val v, s.input_variables = some m → List.lookup var m = some val →
          ¬val = "" → parseI32 val = some v →
          (step s).2 = .cont ∧ (step s).1.reg_store reg = some v))
  ∧ (step (step transferVM).1).2 = .finished 7 := by
  constructor
  · intro s var reg hrun hi
    obtain ⟨str, hstr⟩ : ∃ str, cur_as_string s = some str := by
      simp [cur_as_string, hi]
    have hrep : (if s.repr_enabled then cur_as_string s else some s.str_repr) =
        some (if s.repr_enabled then str else s.str_repr) := by
      cases hre : s.repr_enabled <;> simp [hstr]
    rw [step_eq_execInst s _ _ hrun hi hrep]
    refine ⟨?_, ?_, ?_, ?_, ?_⟩
    · intro hvars; simp [execInst, hvars]
    · intro m hm hlk; simp [execInst, hm, hlk]
    · intro m hm hlk; simp [execInst, hm, hlk]
    · intro m val hm hlk hne hp; simp [execInst, hm, hlk, hne, hp]
    · intro m val v hm hlk hne hp; simp [execInst, hm, hlk, hne, hp]
  · decide

/-- Witness for C9: the four failure modes and the success mode at concrete
mappings. -/
theorem step_transfer_cases_witness :
    (step { transferVM with input_variables := none }).2 = .error .noVariables
  ∧ (step { transferVM with input_variables := some [] }).2 =
      .error (.unknownVar "x")
  ∧ (step { transferVM with input_variables := some [("x", "")] }).2 =
      .error (.emptyVar "x")
  ∧ (step { transferVM with input_variables := some [("x", "abc")] }).2 =
      .error (.nanVar "x" "abc")
  ∧ (step transferVM).2 = .cont :=
  ⟨(step_transfer_cases.1 { transferVM with input_variables := none }
      "x" 0 rfl rfl).1 rfl,
   (step_transfer_cases.1 { transferVM with input_variables := some [] }
      "x" 0 rfl rfl).2.1 [] rfl rfl,
   (step_transfer_cases.1 { transferVM with input_variables := some [("x", "")] }
      "x" 0 rfl rfl).2.2.1 [("x", "")] rfl rfl,
   (step_transfer_cases.1 { transferVM with input_variables := some [("x", "abc")] }
      "x" 0 rfl rfl).2.2.2.1 [("x", "abc")] "abc" rfl rfl (by decide) (by decide),
   ((step_transfer_cases.1 transferVM "x" 0 rfl rfl).2.2.2.2
      [("x", "7")] "7" 7 rfl rfl (by decide) (by decide)).1⟩

/-- C10 (amended, tracing disabled — with tracing enabled the trace
rendering aborts the process first): stepping `Result(r)` with `r` empty
returns the typed empty-register failure, but only after the program counter
has advanced and the running flag has been cleared, so every subsequent step
fails with the not-running error instead. -/
theorem step_result_empty_mutates (s : Interpreter) (r : Reg)
    (hrun : s.running = true)
    (hi : s.instructions[s.program_counter]? = some (.Result r))
    (hr : s.reg_store r = none)
    (htr : s.repr_enabled = false) :
    (step s).2 = .error (.regEmpty r)
  ∧ (step s).1.program_counter = s.program_counter + 1
  ∧ (step s).1.running = false
  ∧ (step (step s).1).2 = .error .notReady := by
  have hrep : (if s.repr_enabled then cur_as_string s else some s.str_repr) =
      some s.str_repr := by simp [htr]
  rw [step_eq_execInst s _ _ hrun hi hrep]
  refine ⟨?_, ?_, ?_, ?_⟩ <;> simp [execInst, hr, step]

/-- Witness for C10 at `Result(r0)` with `r0` empty. -/
theorem step_result_empty_mutates_witness :
    (step resultEmptyVM).2 = .error (.regEmpty 0)
  ∧ (step resultEmptyVM).1.program_counter = resultEmptyVM.program_counter + 1
  ∧ (step resultEmptyVM).1.running = false
  ∧ (step (step resultEmptyVM).1).2 = .error .notReady :=
  step_result_empty_mutates resultEmptyVM 0 rfl rfl rfl rfl

/-- C10 counterexample: with tracing enabled, the same step does not return
a typed failure at all — rendering `Result` of an empty register unwraps
`None` and aborts the process. -/
theorem step_result_empty_mutates_cex :
    (step { resultEmptyVM with repr_enabled := true }).2 = .panic
  ∧ (step { resultEmptyVM with repr_enabled := true }).2 ≠
      .error (.regEmpty 0) := by
  refine ⟨by decide, by decide⟩
